import Mathlib

/-!
Shallow embedding of the session engine of the `postgres-cli` repository
(package `postgres`): the statement accumulator (`readMultiLine`), the
session loop (`Start`), the meta-command dispatcher (`handlePsqlCommand`),
the statement router (`executeSQL`, `isQuery`), the database switch
(`connectToDatabase`) and the result renderer (`displayTable`,
`displayExpanded`).  Go strings are modelled as lists of characters;
the backend connection and the line source are modelled as explicit
oracles / input streams.
-/

namespace PostgresCLI

/-- Go `string`, modelled as a list of characters. -/
abbrev Str := List Char

/-- ASCII whitespace recognised by Go `unicode.IsSpace`
(space, tab, newline, vertical tab, form feed, carriage return). -/
def isSpaceChar (c : Char) : Bool :=
  c = ' ' || c = '\t' || c = '\n' || c = '\x0b' || c = '\x0c' || c = '\r'

/-- Go `strings.TrimSpace`: drop whitespace from both ends. -/
def trimSpace (s : Str) : Str :=
  ((s.dropWhile isSpaceChar).reverse.dropWhile isSpaceChar).reverse

/-- Go `strings.ToUpper` (ASCII fragment). -/
def toUpperStr (s : Str) : Str := s.map Char.toUpper

/-- Go `strings.ToLower` (ASCII fragment). -/
def toLowerStr (s : Str) : Str := s.map Char.toLower

/-- Go `strings.HasPrefix s p`. -/
def startsWith (s p : Str) : Bool := p.isPrefixOf s

/-- Go `strings.HasSuffix s p`. -/
def endsWith (s p : Str) : Bool := p.isSuffixOf s

/-- Go `strings.TrimSuffix`: remove one trailing occurrence when present. -/
def trimSuffixStr (s suf : Str) : Str :=
  if suf.isSuffixOf s then s.take (s.length - suf.length) else s

/-- Go `strings.Join(lines, "\n")`. -/
def joinNL (lines : List Str) : Str := List.intercalate ['\n'] lines

/-- Go `strings.Fields`: split on whitespace runs, keep the nonempty pieces. -/
def fieldsOf (s : Str) : List Str :=
  (s.splitOnP isSpaceChar).filter (fun piece => !piece.isEmpty)

/-! ## Statement accumulator (`readMultiLine`, part_001 lines 236-288) -/

/-- The line source: the lines still available from `reader.ReadLine()`.
An empty list means the source reports end-of-input (EOF) on every
further call. -/
abbrev InputStream := List Str

/-- Loop body of `readMultiLine`, carrying the accumulation buffer `lines`.
On EOF (and likewise on a read error) the Go code returns the empty
string.  The result is the StatementUnit paired with the unconsumed
input. -/
def rmlLoop (lines : List Str) : InputStream → Str × InputStream
  | [] => ([], [])
  | l :: rest =>
    let trimmed := trimSpace l
    if trimmed.isEmpty && lines.isEmpty then
      ([], rest)
    else if lines.isEmpty && startsWith trimmed ['\\'] then
      (trimmed, rest)
    else if lines.isEmpty &&
        (toLowerStr trimmed = ("exit").toList || toLowerStr trimmed = ("quit").toList ||
         toLowerStr trimmed = ("help").toList) then
      (trimmed, rest)
    else if !lines.isEmpty && startsWith trimmed ['\\'] then
      rmlLoop (lines ++ [l]) rest
    else
      let lines2 := lines ++ [l]
      if endsWith trimmed [';'] then (joinNL lines2, rest)
      else rmlLoop lines2 rest

/-- `readMultiLine` (part_001 line 237): accumulate one StatementUnit. -/
def readMultiLine (input : InputStream) : Str × InputStream :=
  rmlLoop [] input

/-! ## Statement classification (`isQuery`, part_001 lines 892-907) -/

/-- The `queryPrefixes` table of `isQuery`. -/
def queryKeywords : List Str :=
  [("SELECT").toList, ("SHOW").toList, ("WITH").toList, ("TABLE").toList,
   ("VALUES").toList, ("EXPLAIN").toList, ("ANALYZE").toList]

/-- `isQuery` (part_001 line 892): uppercase the trimmed statement and test
each keyword with `strings.HasPrefix`. -/
def isQuery (sqlStr : Str) : Bool :=
  queryKeywords.any (fun p => startsWith (toUpperStr (trimSpace sqlStr)) p)

example : isQuery ("select 1").toList = true := by decide
example : isQuery ("  SHOW ALL").toList = true := by decide
example : isQuery ("insert into t values (1)").toList = false := by decide
example : readMultiLine [("select 1;").toList] = (("select 1;").toList, []) := by decide
example : readMultiLine [("  \\q").toList] = (("\\q").toList, []) := by decide

/-! ## Session state and collaborators -/

/-- Shorthand for Go string literals. -/
def lit (s : String) : Str := s.toList

/-- The mutable fields of the `CLI` struct that the session engine reads and
writes (part_001 lines 41-52).  The active `*sql.DB` handle is modelled as an
identifier; `none` models a nil handle. -/
structure SessionState where
  db : Option Nat
  database : Str
  inTransaction : Bool
  expandedMode : Bool
  timingEnabled : Bool
  maxRows : Nat
  deriving Repr, DecidableEq

/-- The `Config` struct (part_001 lines 22-38).  Durations are modelled by the
integers the code derives from them: `int(ConnectTimeout.Seconds())` and
`int(StatementTimeout.Milliseconds())`. -/
structure Config where
  host : Str
  port : Nat
  username : Str
  password : Str
  database : Str
  sslMode : Str
  connectTimeoutSec : Nat
  statementTimeoutMs : Nat
  maxOpenConns : Nat
  maxIdleConns : Nat
  applicationName : Str
  searchPath : Str
  timeZone : Str
  customParams : Str
  deriving Repr, DecidableEq

/-- Terminal output events.  `timing` is the `Time: %.3f ms` line, with the
wall-clock reading abstracted; `helpText`, `sqlHelp` and `connInfo` are the
fixed informational blocks of `showHelp`, `showSQLHelp` and
`showConnectionInfo`. -/
inductive Out
  | text (s : Str)
  | timing
  | helpText
  | sqlHelp (cmd : Str)
  | connInfo
  deriving Repr, DecidableEq

/-- Backend interactions recorded by the model: opening/closing `*sql.DB`
handles and the query/exec/describe calls whose rendering is modelled
separately by `displayTable` / `displayExpanded`. -/
inductive Effect
  | openConn (dsn : Str)
  | closeConn (id : Nat)
  | execCall (sql : Str)
  | queryCall (sql : Str)
  | describeCall (table : Str)
  deriving Repr, DecidableEq

/-- The backend collaborator, as an oracle: the outcome of
`db.ExecContext` (`none` = success, `some msg` = error), of `sql.Open` on a
DSN, of `Ping` on the freshly opened connection, and the identity of that
connection. -/
structure Backend where
  exec : Str → Option Str
  openErr : Str → Option Str
  pingOk : Str → Bool
  newConn : Str → Nat

/-- The `ERROR: %v\n` line printed by the transaction branches of
`executeSQL`. -/
def errLine (msg : Str) : Str := lit "ERROR: " ++ msg ++ ['\n']

/-- The timing footer emitted when `timingEnabled` is set. -/
def timingOut (st : SessionState) : List Out :=
  if st.timingEnabled then [Out.timing] else []

/-! ## Statement router (`executeSQL`, part_001 lines 291-358) -/

/-- `executeSQL`: strip one trailing `;`, special-case the transaction
keywords (setting `inTransaction` before the backend `Exec` call, exactly as
the code does), otherwise route by `isQuery`.  Query/command execution and
rendering are recorded as effects and modelled separately. -/
def executeSQL (exec : Str → Option Str) (st : SessionState) (sqlStr0 : Str) :
    SessionState × List Out × List Effect :=
  let sqlStr := trimSpace (trimSuffixStr (trimSpace sqlStr0) [';'])
  if sqlStr.isEmpty then (st, [], [])
  else
    let upperSQL := toUpperStr sqlStr
    if upperSQL = lit "BEGIN" || upperSQL = lit "START TRANSACTION" then
      let st2 := { st with inTransaction := true }
      match exec (lit "BEGIN") with
      | some errMsg => (st2, [.text (errLine errMsg)], [.execCall (lit "BEGIN")])
      | none => (st2, [.text (lit "BEGIN\n")] ++ timingOut st2, [.execCall (lit "BEGIN")])
    else if upperSQL = lit "COMMIT" then
      let st2 := { st with inTransaction := false }
      match exec (lit "COMMIT") with
      | some errMsg => (st2, [.text (errLine errMsg)], [.execCall (lit "COMMIT")])
      | none => (st2, [.text (lit "COMMIT\n")] ++ timingOut st2, [.execCall (lit "COMMIT")])
    else if upperSQL = lit "ROLLBACK" then
      let st2 := { st with inTransaction := false }
      match exec (lit "ROLLBACK") with
      | some errMsg => (st2, [.text (errLine errMsg)], [.execCall (lit "ROLLBACK")])
      | none => (st2, [.text (lit "ROLLBACK\n")] ++ timingOut st2, [.execCall (lit "ROLLBACK")])
    else if isQuery sqlStr then (st, [], [.queryCall sqlStr])
    else (st, [], [.execCall sqlStr])

/-! ## DSN construction (`Connect` lines 113-140, `connectToDatabase` lines 487-489) -/

/-- Decimal rendering, Go `%d` on a non-negative int. -/
def natStr (n : Nat) : Str := (Nat.repr n).toList

/-- The DSN built by `Connect`: the configured `sslmode` and
`connect_timeout` plus the optional parameters, in source order. -/
def connectDSN (cfg : Config) : Str :=
  lit "host=" ++ cfg.host ++ lit " port=" ++ natStr cfg.port ++ lit " user=" ++ cfg.username
    ++ lit " password=" ++ cfg.password ++ lit " dbname=" ++ cfg.database
    ++ lit " sslmode=" ++ cfg.sslMode ++ lit " connect_timeout=" ++ natStr cfg.connectTimeoutSec
    ++ (if !cfg.applicationName.isEmpty then lit " application_name=" ++ cfg.applicationName else [])
    ++ (if !cfg.searchPath.isEmpty then lit " search_path=" ++ cfg.searchPath else [])
    ++ (if !cfg.timeZone.isEmpty then lit " timezone=" ++ cfg.timeZone else [])
    ++ (if cfg.statementTimeoutMs > 0 then lit " statement_timeout=" ++ natStr cfg.statementTimeoutMs else [])
    ++ (if !cfg.customParams.isEmpty then lit " " ++ cfg.customParams else [])

/-- The DSN built by `connectToDatabase` for a database switch: `sslmode` and
`connect_timeout` are hardcoded in the format string. -/
def switchDSN (cfg : Config) (dbName : Str) : Str :=
  lit "host=" ++ cfg.host ++ lit " port=" ++ natStr cfg.port ++ lit " user=" ++ cfg.username
    ++ lit " password=" ++ cfg.password ++ lit " dbname=" ++ dbName
    ++ lit " sslmode=disable connect_timeout=10"

/-! ## Database switch (`connectToDatabase`, part_001 lines 487-511) -/

/-- `connectToDatabase`: open the new connection; if `Ping` fails, close the
new connection and leave the session untouched; on success close the old
connection, install the new one and update `database`. -/
def connectToDatabase (b : Backend) (cfg : Config) (st : SessionState) (dbName : Str) :
    SessionState × List Out × List Effect :=
  let dsn := switchDSN cfg dbName
  match b.openErr dsn with
  | some errMsg => (st, [.text (errLine errMsg)], [.openConn dsn])
  | none =>
    let newDB := b.newConn dsn
    if !(b.pingOk dsn) then
      (st, [.text (lit "ERROR: database \"" ++ dbName ++ lit "\" does not exist\n")],
        [.openConn dsn, .closeConn newDB])
    else
      let closeOld : List Effect :=
        match st.db with
        | some old => [.closeConn old]
        | none => []
      ({ st with db := some newDB, database := dbName },
        [.text (lit "You are now connected to database \"" ++ dbName ++ lit "\" as user \""
          ++ cfg.username ++ lit "\".\n")],
        [.openConn dsn] ++ closeOld)

/-! ## Fixed informational queries of the dispatcher (part_001 lines 384-481) -/

def listDatabasesSQL : Str :=
  lit "SELECT datname AS \"Name\", pg_catalog.pg_get_userbyid(datdba) AS \"Owner\", pg_catalog.pg_encoding_to_char(encoding) AS \"Encoding\" FROM pg_catalog.pg_database ORDER BY datname"

def listTablesSQL : Str :=
  lit "SELECT schemaname AS \"Schema\", tablename AS \"Name\", tableowner AS \"Owner\" FROM pg_catalog.pg_tables WHERE schemaname NOT IN ('pg_catalog', 'information_schema') ORDER BY schemaname, tablename"

def listSchemasSQL : Str :=
  lit "SELECT nspname AS \"Name\", pg_catalog.pg_get_userbyid(nspowner) AS \"Owner\" FROM pg_catalog.pg_namespace WHERE nspname !~ '^pg_' AND nspname <> 'information_schema' ORDER BY nspname"

def listViewsSQL : Str :=
  lit "SELECT schemaname AS \"Schema\", viewname AS \"Name\", viewowner AS \"Owner\" FROM pg_catalog.pg_views WHERE schemaname NOT IN ('pg_catalog', 'information_schema') ORDER BY schemaname, viewname"

def listIndexesSQL : Str :=
  lit "SELECT schemaname AS \"Schema\", indexname AS \"Name\", tablename AS \"Table\" FROM pg_catalog.pg_indexes WHERE schemaname NOT IN ('pg_catalog', 'information_schema') ORDER BY schemaname, indexname"

def listSequencesSQL : Str :=
  lit "SELECT schemaname AS \"Schema\", sequencename AS \"Name\", sequenceowner AS \"Owner\" FROM pg_catalog.pg_sequences WHERE schemaname NOT IN ('pg_catalog', 'information_schema') ORDER BY schemaname, sequencename"

def listFunctionsSQL : Str :=
  lit "SELECT n.nspname AS \"Schema\", p.proname AS \"Name\", pg_catalog.pg_get_function_result(p.oid) AS \"Result data type\" FROM pg_catalog.pg_proc p LEFT JOIN pg_catalog.pg_namespace n ON n.oid = p.pronamespace WHERE n.nspname NOT IN ('pg_catalog', 'information_schema') ORDER BY n.nspname, p.proname"

def listRolesSQL : Str :=
  lit "SELECT rolname AS \"Role name\", rolsuper AS \"Superuser\", rolinherit AS \"Inherit\", rolcreaterole AS \"Create role\", rolcreatedb AS \"Create DB\" FROM pg_catalog.pg_roles ORDER BY rolname"

def publicTablesSQL : Str :=
  lit "SELECT tablename FROM pg_catalog.pg_tables WHERE schemaname = 'public' ORDER BY tablename"

/-! ## Meta-command dispatcher (`handlePsqlCommand`, part_001 lines 361-484) -/

/-- `handlePsqlCommand`: the sequential chain of exact-token and
fixed-prefix tests, in source order.  Returns whether the unit was
recognised, together with the updated state, terminal output and backend
effects. -/
def handlePsqlCommand (b : Backend) (cfg : Config) (st : SessionState) (cmd0 : Str) :
    Bool × SessionState × List Out × List Effect :=
  let cmd := trimSpace cmd0
  let cmdLower := toLowerStr cmd
  if cmd = lit "\\q" || cmdLower = lit "exit" || cmdLower = lit "quit" then
    (true, st, [.text (lit "\n")], [])
  else if cmd = lit "\\?" || cmdLower = lit "help" then
    (true, st, [.helpText], [])
  else if cmd = lit "\\h" || startsWith cmd (lit "\\h ") then
    (true, st, [.sqlHelp cmd], [])
  else if cmd = lit "\\l" || cmd = lit "\\list" then
    let r := executeSQL b.exec st listDatabasesSQL
    (true, r.1, r.2.1, r.2.2)
  else if startsWith cmd (lit "\\c ") || startsWith cmd (lit "\\connect ") then
    let parts := fieldsOf cmd
    if parts.length ≥ 2 then
      let r := connectToDatabase b cfg st (parts[1]?.getD [])
      (true, r.1, r.2.1, r.2.2)
    else
      (true, st, [.text (lit "ERROR: database name required\n")], [])
  else if cmd = lit "\\dt" || cmd = lit "\\dt+" then
    let r := executeSQL b.exec st listTablesSQL
    (true, r.1, r.2.1, r.2.2)
  else if cmd = lit "\\dn" || cmd = lit "\\dn+" then
    let r := executeSQL b.exec st listSchemasSQL
    (true, r.1, r.2.1, r.2.2)
  else if startsWith cmd (lit "\\d ") then
    let tableName := trimSpace (cmd.drop 3)
    (true, st, [], [.describeCall tableName])
  else if cmd = lit "\\dv" || cmd = lit "\\dv+" then
    let r := executeSQL b.exec st listViewsSQL
    (true, r.1, r.2.1, r.2.2)
  else if cmd = lit "\\di" || cmd = lit "\\di+" then
    let r := executeSQL b.exec st listIndexesSQL
    (true, r.1, r.2.1, r.2.2)
  else if cmd = lit "\\ds" || cmd = lit "\\ds+" then
    let r := executeSQL b.exec st listSequencesSQL
    (true, r.1, r.2.1, r.2.2)
  else if cmd = lit "\\df" || cmd = lit "\\df+" then
    let r := executeSQL b.exec st listFunctionsSQL
    (true, r.1, r.2.1, r.2.2)
  else if cmd = lit "\\du" || cmd = lit "\\du+" then
    let r := executeSQL b.exec st listRolesSQL
    (true, r.1, r.2.1, r.2.2)
  else if cmd = lit "\\x" then
    let st2 := { st with expandedMode := !st.expandedMode }
    (true, st2,
      [.text (if st2.expandedMode then lit "Expanded display is on.\n"
              else lit "Expanded display is off.\n")], [])
  else if cmd = lit "\\timing" then
    let st2 := { st with timingEnabled := !st.timingEnabled }
    (true, st2,
      [.text (if st2.timingEnabled then lit "Timing is on.\n"
              else lit "Timing is off.\n")], [])
  else if cmd = lit "\\conninfo" then
    (true, st, [.connInfo], [])
  else if cmd = lit "\\d" then
    let r := executeSQL b.exec st publicTablesSQL
    (true, r.1, r.2.1, r.2.2)
  else
    (false, st, [], [])

/-! ## Session loop (`Start`, part_001 lines 200-226) -/

/-- Outcome of running the `Start` loop for a bounded number of
iterations: either the function returned (with the unconsumed input), or
the iteration budget was exhausted without `Start` returning. -/
inductive StartOutcome
  | returned (rest : InputStream)
  | outOfFuel
  deriving Repr, DecidableEq

/-- The `Start` loop, fuel-indexed: read one unit with `readMultiLine`,
skip empty units, dispatch meta-commands, return on the exit forms,
otherwise route through `executeSQL`. -/
def runStart (b : Backend) (cfg : Config) : Nat → SessionState → InputStream → StartOutcome
  | 0, _, _ => .outOfFuel
  | fuel + 1, st, input =>
    let r := readMultiLine input
    if r.1.isEmpty then runStart b cfg fuel st r.2
    else
      let sqlStr := trimSpace r.1
      let h := handlePsqlCommand b cfg st sqlStr
      if h.1 then
        if toLowerStr sqlStr = lit "exit" || toLowerStr sqlStr = lit "quit" ||
            sqlStr = lit "\\q" then
          .returned r.2
        else runStart b cfg fuel h.2.1 r.2
      else
        let e := executeSQL b.exec h.2.1 sqlStr
        runStart b cfg fuel e.1 r.2

/-! ## Result renderer (`displayTable` lines 666-773, `displayExpanded` lines 785-844) -/

/-- A scanned cell value, tagged with the coarse type the renderer switches
on.  `timeVal` carries the `2006-01-02 15:04:05` rendering of the timestamp;
`other` carries the `%v` rendering of any other scalar. -/
inductive SqlValue
  | null
  | bytes (s : Str)
  | timeVal (formatted : Str)
  | boolVal (b : Bool)
  | other (s : Str)
  deriving Repr, DecidableEq

/-- The per-type value formatting shared by both display modes. -/
def formatValue : SqlValue → Str
  | .null => []
  | .bytes s => s
  | .timeVal s => s
  | .boolVal true => lit "t"
  | .boolVal false => lit "f"
  | .other s => s

/-- Initial column width in `displayTable`: the header length, floored at 4
and then ceiled at 50 (in that order, as in the code). -/
def initWidth (col : Str) : Nat :=
  let w := col.length
  let w2 := if w < 4 then 4 else w
  if w2 > 50 then 50 else w2

/-- Width update and truncation for one formatted cell: grow the column to
the value's length, except that values longer than 50 characters are cut to
47 characters plus `...` and the width is pinned at 50. -/
def updateCell (w : Nat) (v : Str) : Nat × Str :=
  if v.length > w then
    if v.length > 50 then (50, v.take 47 ++ lit "...")
    else (v.length, v)
  else (w, v)

/-- One row of the width-update loop, cell by cell. -/
def updateWidthsRow (ws : List Nat) (vs : List Str) : List Nat × List Str :=
  ((ws.zip vs).map fun p => (updateCell p.1 p.2).1,
   (ws.zip vs).map fun p => (updateCell p.1 p.2).2)

/-- The row-collection loop of `displayTable`: format each scanned row,
update the widths, append to `allRows`, and break once `maxRows` rows have
been collected. -/
def collectLoop (maxRows : Nat) (ws : List Nat) (acc : List (List Str)) :
    List (List SqlValue) → List Nat × List (List Str)
  | [] => (ws, acc)
  | row :: rest =>
    let fr := row.map formatValue
    let u := updateWidthsRow ws fr
    let acc2 := acc ++ [u.2]
    if maxRows ≤ acc2.length then (u.1, acc2)
    else collectLoop maxRows u.1 acc2 rest

/-- Left-justified padding, Go `%-*s`. -/
def padCell (s : Str) (w : Nat) : Str := s ++ List.replicate (w - s.length) ' '

/-- One printed table line: a leading space, then each cell padded to its
width and followed by a space, with `| ` between columns. -/
def tableLine (ws : List Nat) (cells : List Str) : Str :=
  lit " " ++ List.intercalate (lit "| ") ((ws.zip cells).map fun p => padCell p.2 p.1 ++ lit " ")
    ++ lit "\n"

/-- The dash separator line under the header. -/
def sepLine (ws : List Nat) : Str :=
  List.intercalate (lit "+-") (ws.map fun w => List.replicate (w + 1) '-') ++ lit "\n"

/-- The `(0 rows)` / `(1 row)` / `(N rows)` footer. -/
def rowCountLine (n : Nat) : Str :=
  if n = 0 then lit "(0 rows)\n"
  else if n = 1 then lit "(1 row)\n"
  else lit "(" ++ natStr n ++ lit " rows)\n"

/-- `displayTable`: collect up to `maxRows` rows (computing widths and
truncations on the way), then print header, separator, rows, row-count
footer, optional timing line and a trailing blank line. -/
def displayTable (st : SessionState) (cols : List Str) (stream : List (List SqlValue)) :
    List Out :=
  let c := collectLoop st.maxRows (cols.map initWidth) [] stream
  [Out.text (tableLine c.1 cols), Out.text (sepLine c.1)]
    ++ c.2.map (fun r => Out.text (tableLine c.1 r))
    ++ [Out.text (rowCountLine c.2.length)] ++ timingOut st ++ [Out.text (lit "\n")]

/-- The `-[ RECORD n ]---…` header of expanded mode, padded with dashes to a
total width of 50. -/
def recordHeader (n : Nat) : Str :=
  let h := lit "-[ RECORD " ++ natStr n ++ lit " ]"
  h ++ List.replicate (50 - h.length) '-' ++ lit "\n"

/-- The longest column label, used to pad labels in expanded mode. -/
def maxColLen (cols : List Str) : Nat :=
  cols.foldl (fun m c => if m < c.length then c.length else m) 0

/-- The record-printing loop of `displayExpanded`, carrying `rowNum` and
breaking once it reaches `maxRows` (the check sits after the record is
printed, as in the code). -/
def expLoop (maxRows : Nat) (cols : List Str) (rowNum : Nat) :
    List (List SqlValue) → List Out
  | [] => []
  | row :: rest =>
    let n := rowNum + 1
    let recOuts :=
      [Out.text (recordHeader n)]
        ++ (cols.zip row).map (fun p =>
            Out.text (padCell p.1 (maxColLen cols) ++ lit " | " ++ formatValue p.2 ++ lit "\n"))
    if maxRows ≤ n then recOuts
    else recOuts ++ expLoop maxRows cols n rest

/-- `displayExpanded`: one block per record, then the zero-row footer,
optional timing line and a trailing blank line. -/
def displayExpanded (st : SessionState) (cols : List Str) (stream : List (List SqlValue)) :
    List Out :=
  expLoop st.maxRows cols 0 stream
    ++ (if stream.isEmpty then [Out.text (lit "(0 rows)\n")] else [])
    ++ timingOut st ++ [Out.text (lit "\n")]

/-! ## Derived notions used in the statements -/

/-- The truncation `displayTable` applies to one formatted cell, as a
function of the cell alone: values longer than 50 characters become their
first 47 characters plus `...`. -/
def truncCell (v : Str) : Str :=
  if 50 < v.length then v.take 47 ++ lit "..." else v

/-- The largest length among a list of formatted values. -/
def maxLenList (vs : List Str) : Nat :=
  vs.foldr (fun v m => max v.length m) 0

/-- The width part of the row-collection loop, as a fold over the
already-formatted rows. -/
def widthsFold (ws : List Nat) (frows : List (List Str)) : List Nat :=
  frows.foldl (fun ws fr => (updateWidthsRow ws fr).1) ws

/-- The spec's classification predicate: after trimming, the statement
begins, case-insensitively, with one of the seven query keywords. -/
def beginsWithCaseInsensitive (s w : Str) : Prop :=
  toUpperStr ((trimSpace s).take w.length) = w

/-- A statement is query-shaped in the sense of the spec. -/
def specQueryShaped (s : Str) : Prop :=
  ∃ w ∈ queryKeywords, beginsWithCaseInsensitive s w

/-! ## Concrete instances used for evaluations and witnesses -/

/-- A session state outside a transaction, used for concrete evaluations. -/
def stNoTxn : SessionState :=
  { db := some 1, database := lit "testdb", inTransaction := false,
    expandedMode := false, timingEnabled := false, maxRows := 1000 }

/-- The same state inside a transaction. -/
def stInTxn : SessionState := { stNoTxn with inTransaction := true }

/-- A backend whose `Exec` always fails. -/
def failingExec : Str → Option Str := fun _ => some (lit "connection refused")

/-- A concrete configuration for witnesses. -/
def cfgEx : Config :=
  { host := lit "localhost", port := 5432, username := lit "postgres",
    password := lit "secret", database := lit "testdb", sslMode := lit "require",
    connectTimeoutSec := 15, statementTimeoutMs := 0, maxOpenConns := 10,
    maxIdleConns := 5, applicationName := lit "psql", searchPath := [],
    timeZone := [], customParams := [] }

/-- A backend whose `Ping` fails on every new connection. -/
def backendPingFail : Backend :=
  { exec := fun _ => none, openErr := fun _ => none, pingOk := fun _ => false,
    newConn := fun _ => 7 }

/-- A backend whose `Ping` succeeds on every new connection. -/
def backendPingOk : Backend :=
  { exec := fun _ => none, openErr := fun _ => none, pingOk := fun _ => true,
    newConn := fun _ => 7 }

/-- A 60-character formatted value, used to witness truncation. -/
def v60 : Str := List.replicate 60 'a'

/-! # Theorems -/

/-- C1: evaluating `executeSQL` at the failing inputs.  The code sets
`inTransaction` before calling the backend, so after a failed `Exec` of
`BEGIN` the flag has flipped from `false` to `true` (an `ERROR:` line is
printed and no `BEGIN` acknowledgment), and after a failed `COMMIT` or
`ROLLBACK` it has flipped from `true` to `false` — contradicting the claim
that the flag is unchanged when the backend call fails. -/
theorem executeSQL_mutates_inTransaction_on_failed_exec :
    (executeSQL failingExec stNoTxn (lit "BEGIN")).1.inTransaction = true ∧
    (executeSQL failingExec stNoTxn (lit "BEGIN")).2.1
      = [Out.text (errLine (lit "connection refused"))] ∧
    (executeSQL failingExec stNoTxn (lit "START TRANSACTION")).1.inTransaction = true ∧
    (executeSQL failingExec stInTxn (lit "COMMIT")).1.inTransaction = false ∧
    (executeSQL failingExec stInTxn (lit "ROLLBACK")).1.inTransaction = false := by
  decide

/-- C2: with the line source at end-of-input, `readMultiLine` yields the
empty unit and the `Start` loop treats it as a blank line and re-reads: the
loop never returns, for any iteration budget — contradicting the claim that
`Start` returns cleanly on EOF. -/
theorem runStart_never_returns_on_eof :
    ∀ (b : Backend) (cfg : Config) (fuel : Nat) (st : SessionState),
      readMultiLine [] = ([], []) ∧ runStart b cfg fuel st [] = StartOutcome.outOfFuel := by
  intro b cfg fuel
  induction fuel with
  | zero => intro st; exact ⟨rfl, rfl⟩
  | succ n ih =>
    intro st
    refine ⟨rfl, ?_⟩
    simpa [runStart, readMultiLine, rmlLoop] using (ih st).2

/-- C3 counterexample: with accumulation in progress (`select 1` buffered),
the next line `\x;` ends with `;` after trimming, yet it does not terminate
accumulation: the backslash branch appends it and skips the terminator
check, so at end of input the buffer is discarded and the empty unit comes
back instead of the joined buffer. -/
theorem readMultiLine_escape_semicolon_cex :
    readMultiLine [lit "select 1", lit "\\x;"]
      ≠ (joinNL [lit "select 1", lit "\\x;"], []) := by
  decide

/-- C3 (amended): once the buffer is non-empty, a line starting with the
escape prefix is appended as literal SQL text and accumulation continues
(no terminator check, even if the line ends with `;`); a line not starting
with the escape prefix whose trimmed form ends with `;` terminates
accumulation and the buffer joined with newlines is returned. -/
theorem rmlLoop_continuation_spec (lines : List Str) (l : Str) (rest : InputStream)
    (hne : lines ≠ []) :
    (startsWith (trimSpace l) ['\\'] = true →
      rmlLoop lines (l :: rest) = rmlLoop (lines ++ [l]) rest) ∧
    (startsWith (trimSpace l) ['\\'] = false → endsWith (trimSpace l) [';'] = true →
      rmlLoop lines (l :: rest) = (joinNL (lines ++ [l]), rest)) := by
  have hemp : lines.isEmpty = false := by
    cases lines with
    | nil => exact absurd rfl hne
    | cons a as => rfl
  constructor
  · intro hbs
    simp [rmlLoop, hemp, hbs]
  · intro hbs hsemi
    simp [rmlLoop, hemp, hbs, hsemi]

/-- C3 witness: the amended statement applied at concrete inputs. -/
theorem rmlLoop_continuation_spec_witness :
    ([lit "select 1"] ≠ ([] : List Str)) ∧
    startsWith (trimSpace (lit "\\x;")) ['\\'] = true ∧
    startsWith (trimSpace (lit "from t;")) ['\\'] = false ∧
    endsWith (trimSpace (lit "from t;")) [';'] = true ∧
    rmlLoop [lit "select 1"] [lit "\\x;"] = rmlLoop [lit "select 1", lit "\\x;"] [] ∧
    rmlLoop [lit "select 1"] [lit "from t;"] = (joinNL [lit "select 1", lit "from t;"], []) :=
  ⟨by decide, by decide, by decide, by decide,
    (rmlLoop_continuation_spec [lit "select 1"] (lit "\\x;") [] (by decide)).1 (by decide),
    (rmlLoop_continuation_spec [lit "select 1"] (lit "from t;") [] (by decide)).2
      (by decide) (by decide)⟩

/-- C4 counterexample: a first line starting (after trimming) with the
escape prefix is returned trimmed, not verbatim: `"  \q"` comes back as
`"\q"`. -/
theorem readMultiLine_first_meta_not_verbatim_cex :
    (readMultiLine [lit "  \\q"]).1 ≠ lit "  \\q" := by
  decide

/-- C4 (amended): if the very first line's trimmed form starts with the
escape prefix, the Accumulator returns that trimmed form as a one-line
StatementUnit without reading any further input. -/
theorem readMultiLine_first_meta_line (l : Str) (rest : InputStream)
    (h : startsWith (trimSpace l) ['\\'] = true) :
    readMultiLine (l :: rest) = (trimSpace l, rest) := by
  have hne : (trimSpace l).isEmpty = false := by
    cases t : trimSpace l with
    | nil => rw [t] at h; exact absurd h (by decide)
    | cons a as => rfl
  simp [readMultiLine, rmlLoop, hne, h]

/-- C4 witness: the amended statement applied at a concrete input. -/
theorem readMultiLine_first_meta_line_witness :
    startsWith (trimSpace (lit "  \\q")) ['\\'] = true ∧
    readMultiLine [lit "  \\q"] = (trimSpace (lit "  \\q"), []) :=
  ⟨by decide, readMultiLine_first_meta_line (lit "  \\q") [] (by decide)⟩

/-- C9: from every session state, `\x` is recognised, flips exactly
`expandedMode`, prints the confirmation line for the new value, and a second
`\x` restores the original state; likewise `\timing` for `timingEnabled`. -/
theorem handlePsqlCommand_toggle_idempotence (b : Backend) (cfg : Config) (st : SessionState) :
    (handlePsqlCommand b cfg st (lit "\\x")).1 = true ∧
    (handlePsqlCommand b cfg st (lit "\\x")).2.1
      = { st with expandedMode := !st.expandedMode } ∧
    (handlePsqlCommand b cfg st (lit "\\x")).2.2.1
      = [Out.text (if !st.expandedMode then lit "Expanded display is on.\n"
                   else lit "Expanded display is off.\n")] ∧
    (handlePsqlCommand b cfg (handlePsqlCommand b cfg st (lit "\\x")).2.1 (lit "\\x")).2.1
      = st ∧
    (handlePsqlCommand b cfg st (lit "\\timing")).1 = true ∧
    (handlePsqlCommand b cfg st (lit "\\timing")).2.1
      = { st with timingEnabled := !st.timingEnabled } ∧
    (handlePsqlCommand b cfg st (lit "\\timing")).2.2.1
      = [Out.text (if !st.timingEnabled then lit "Timing is on.\n"
                   else lit "Timing is off.\n")] ∧
    (handlePsqlCommand b cfg (handlePsqlCommand b cfg st (lit "\\timing")).2.1
        (lit "\\timing")).2.1 = st := by
  refine ⟨rfl, rfl, rfl, ?_, rfl, rfl, rfl, ?_⟩
  · have h : (handlePsqlCommand b cfg (handlePsqlCommand b cfg st (lit "\\x")).2.1
        (lit "\\x")).2.1 = { st with expandedMode := !(!st.expandedMode) } := rfl
    rw [h, Bool.not_not]
  · have h : (handlePsqlCommand b cfg (handlePsqlCommand b cfg st (lit "\\timing")).2.1
        (lit "\\timing")).2.1 = { st with timingEnabled := !(!st.timingEnabled) } := rfl
    rw [h, Bool.not_not]

/-- C5: database switch.  With `sql.Open` succeeding, if `Ping` on the new
connection fails, the session keeps its old connection and database name,
the `does not exist` error is emitted and only the new connection is
closed; if `Ping` succeeds, the new connection and requested name are
installed, the connected message is emitted, and the old connection is
closed. -/
theorem connectToDatabase_spec (b : Backend) (cfg : Config) (st : SessionState) (dbName : Str)
    (hopen : b.openErr (switchDSN cfg dbName) = none) :
    (b.pingOk (switchDSN cfg dbName) = false →
      (connectToDatabase b cfg st dbName).1 = st ∧
      (connectToDatabase b cfg st dbName).2.1
        = [Out.text (lit "ERROR: database \"" ++ dbName ++ lit "\" does not exist\n")] ∧
      (∀ old, Effect.closeConn old ∈ (connectToDatabase b cfg st dbName).2.2 →
        old = b.newConn (switchDSN cfg dbName))) ∧
    (b.pingOk (switchDSN cfg dbName) = true →
      (connectToDatabase b cfg st dbName).1
        = { st with db := some (b.newConn (switchDSN cfg dbName)), database := dbName } ∧
      (connectToDatabase b cfg st dbName).2.1
        = [Out.text (lit "You are now connected to database \"" ++ dbName ++ lit "\" as user \""
            ++ cfg.username ++ lit "\".\n")] ∧
      (∀ old, st.db = some old →
        Effect.closeConn old ∈ (connectToDatabase b cfg st dbName).2.2)) := by
  constructor
  · intro hping
    refine ⟨?_, ?_, ?_⟩ <;> simp [connectToDatabase, hopen, hping]
  · intro hping
    refine ⟨?_, ?_, ?_⟩
    · simp [connectToDatabase, hopen, hping]
    · simp [connectToDatabase, hopen, hping]
    · intro old hold
      simp [connectToDatabase, hopen, hping, hold]

/-- C5 witness: the switch theorem applied at concrete inputs. -/
theorem connectToDatabase_spec_witness :
    backendPingFail.openErr (switchDSN cfgEx (lit "otherdb")) = none ∧
    backendPingFail.pingOk (switchDSN cfgEx (lit "otherdb")) = false ∧
    (connectToDatabase backendPingFail cfgEx stNoTxn (lit "otherdb")).1 = stNoTxn ∧
    backendPingOk.pingOk (switchDSN cfgEx (lit "otherdb")) = true ∧
    (connectToDatabase backendPingOk cfgEx stNoTxn (lit "otherdb")).1
      = { stNoTxn with db := some 7, database := lit "otherdb" } :=
  ⟨rfl, rfl,
    ((connectToDatabase_spec backendPingFail cfgEx stNoTxn (lit "otherdb") rfl).1 rfl).1,
    rfl,
    ((connectToDatabase_spec backendPingOk cfgEx stNoTxn (lit "otherdb") rfl).2 rfl).1⟩

/-- C10: the DSN built for a database switch ends with the hardcoded
` sslmode=disable connect_timeout=10` and is unchanged under any values of
the configured SSL mode, timeouts, pool sizes and extra parameters; the
initial `Connect` DSN, by contrast, embeds the configured `sslmode` and
`connect_timeout` values. -/
theorem switchDSN_pins_sslmode_and_timeout (cfg : Config) (dbName s a sp tz cp d : Str)
    (n m mo mi : Nat) :
    endsWith (switchDSN cfg dbName) (lit " sslmode=disable connect_timeout=10") = true ∧
    switchDSN { cfg with
        sslMode := s, connectTimeoutSec := n, statementTimeoutMs := m,
        maxOpenConns := mo, maxIdleConns := mi, applicationName := a, searchPath := sp,
        timeZone := tz, customParams := cp, database := d } dbName
      = switchDSN cfg dbName ∧
    List.IsInfix
      (lit " sslmode=" ++ cfg.sslMode ++ lit " connect_timeout=" ++ natStr cfg.connectTimeoutSec)
      (connectDSN cfg) := by
  refine ⟨?_, rfl, ?_⟩
  · rw [endsWith, List.isSuffixOf_iff_suffix]
    exact List.suffix_append _ _
  · refine ⟨lit "host=" ++ cfg.host ++ lit " port=" ++ natStr cfg.port ++ lit " user="
      ++ cfg.username ++ lit " password=" ++ cfg.password ++ lit " dbname=" ++ cfg.database,
      (if !cfg.applicationName.isEmpty then lit " application_name=" ++ cfg.applicationName else [])
        ++ (if !cfg.searchPath.isEmpty then lit " search_path=" ++ cfg.searchPath else [])
        ++ (if !cfg.timeZone.isEmpty then lit " timezone=" ++ cfg.timeZone else [])
        ++ (if cfg.statementTimeoutMs > 0 then lit " statement_timeout="
              ++ natStr cfg.statementTimeoutMs else [])
        ++ (if !cfg.customParams.isEmpty then lit " " ++ cfg.customParams else []), ?_⟩
    simp [connectDSN, List.append_assoc]

/-- C7: `isQuery` returns true exactly on the statements that begin,
case-insensitively after trimming, with one of SELECT, SHOW, WITH, TABLE,
VALUES, EXPLAIN, ANALYZE; the spec's worked examples classify as stated. -/
theorem isQuery_iff_specQueryShaped :
    (∀ s : Str, isQuery s = true ↔ specQueryShaped s) ∧
    isQuery (lit "select 1") = true ∧
    isQuery (lit "  SHOW ALL") = true ∧
    isQuery (lit "with x as (select 1) select * from x") = true ∧
    isQuery (lit "insert into t values (1)") = false ∧
    isQuery (lit "vacuum t") = false := by
  refine ⟨?_, by decide, by decide, by decide, by decide, by decide⟩
  intro s
  unfold isQuery specQueryShaped beginsWithCaseInsensitive startsWith toUpperStr
  rw [List.any_eq_true]
  constructor
  · rintro ⟨w, hw, hpre⟩
    refine ⟨w, hw, ?_⟩
    have h2 : w <+: (trimSpace s).map Char.toUpper :=
      (List.isPrefixOf_iff_prefix).1 hpre
    have h3 := List.prefix_iff_eq_take.1 h2
    rw [List.map_take, ← h3]
  · rintro ⟨w, hw, heq⟩
    refine ⟨w, hw, ?_⟩
    rw [List.isPrefixOf_iff_prefix, List.prefix_iff_eq_take, ← List.map_take, heq]

/-- The row-collection loop only looks at the first `maxRows - acc.length`
rows of the stream. -/
theorem collectLoop_take (rows : List (List SqlValue)) :
    ∀ (m : Nat) (ws : List Nat) (acc : List (List Str)), acc.length < m →
      collectLoop m ws acc (rows.take (m - acc.length)) = collectLoop m ws acc rows := by
  induction rows with
  | nil => intro m ws acc _; simp
  | cons r rest ih =>
    intro m ws acc h
    have hk : m - acc.length = (m - (acc.length + 1)) + 1 := by omega
    rw [hk, List.take_succ_cons]
    simp only [collectLoop]
    by_cases hstop : m ≤ (acc ++ [(updateWidthsRow ws (r.map formatValue)).2]).length
    · have hstop' : m ≤ acc.length + 1 := by simpa using hstop
      simp [hstop']
    · simp only [hstop, if_false]
      have hlt : (acc ++ [(updateWidthsRow ws (r.map formatValue)).2]).length < m := by
        simp only [List.length_append, List.length_cons, List.length_nil] at hstop ⊢
        omega
      have h2 := ih m (updateWidthsRow ws (r.map formatValue)).1
        (acc ++ [(updateWidthsRow ws (r.map formatValue)).2]) hlt
      simpa using h2

/-- The row-collection loop never collects more than `maxRows` rows. -/
theorem collectLoop_length (rows : List (List SqlValue)) :
    ∀ (m : Nat) (ws : List Nat) (acc : List (List Str)), acc.length < m →
      (collectLoop m ws acc rows).2.length ≤ m := by
  induction rows with
  | nil => intro m ws acc h; simpa [collectLoop] using Nat.le_of_lt h
  | cons r rest ih =>
    intro m ws acc h
    simp only [collectLoop]
    by_cases hstop : m ≤ (acc ++ [(updateWidthsRow ws (r.map formatValue)).2]).length
    · simp only [hstop, if_true]
      simp only [List.length_append, List.length_cons, List.length_nil]
      omega
    · simp only [hstop, if_false]
      exact ih m _ _ (Nat.lt_of_not_le hstop)

/-- The expanded-mode record loop only looks at the first
`maxRows - rowNum` rows of the stream. -/
theorem expLoop_take (rows : List (List SqlValue)) :
    ∀ (m : Nat) (cols : List Str) (rn : Nat), rn < m →
      expLoop m cols rn (rows.take (m - rn)) = expLoop m cols rn rows := by
  induction rows with
  | nil => intro m cols rn _; simp
  | cons r rest ih =>
    intro m cols rn h
    have hk : m - rn = (m - (rn + 1)) + 1 := by omega
    rw [hk, List.take_succ_cons]
    simp only [expLoop]
    by_cases hstop : m ≤ rn + 1
    · simp [hstop]
    · simp only [hstop, if_false]
      rw [ih m cols (rn + 1) (by omega)]

/-- Taking at least one element preserves emptiness. -/
theorem take_isEmpty {α : Type} (m : Nat) (h : 1 ≤ m) (s : List α) :
    (s.take m).isEmpty = s.isEmpty := by
  cases s with
  | nil => simp
  | cons a l =>
    cases m with
    | zero => omega
    | succ k => simp

/-- C8: with a positive row cap (the session always runs with
`maxRows = 1000`), `displayTable` collects at most `maxRows` rows, and both
renderers produce output that depends only on the first `maxRows` rows of
the result stream: rows beyond the cap are neither consumed nor signalled
in any way. -/
theorem display_row_cap (st : SessionState) (cols : List Str) (stream : List (List SqlValue))
    (h : 1 ≤ st.maxRows) :
    (collectLoop st.maxRows (cols.map initWidth) [] stream).2.length ≤ st.maxRows ∧
    displayTable st cols stream = displayTable st cols (stream.take st.maxRows) ∧
    expLoop st.maxRows cols 0 stream = expLoop st.maxRows cols 0 (stream.take st.maxRows) ∧
    displayExpanded st cols stream = displayExpanded st cols (stream.take st.maxRows) := by
  have h0 : ([] : List (List Str)).length < st.maxRows := by simpa using h
  have hc := collectLoop_take stream st.maxRows (cols.map initWidth) [] h0
  simp only [List.length_nil, Nat.sub_zero] at hc
  have he := expLoop_take stream st.maxRows cols 0 (by omega)
  simp only [Nat.sub_zero] at he
  refine ⟨collectLoop_length stream st.maxRows _ [] h0, ?_, he.symm, ?_⟩
  · unfold displayTable
    rw [hc]
  · unfold displayExpanded
    rw [he, take_isEmpty st.maxRows h stream]

/-- C8 witness: the cap theorem applied at a concrete state and stream. -/
theorem display_row_cap_witness :
    1 ≤ stNoTxn.maxRows ∧
    (collectLoop stNoTxn.maxRows ([lit "id"].map initWidth) []
        [[SqlValue.other (lit "1")]]).2.length ≤ stNoTxn.maxRows :=
  ⟨by decide, (display_row_cap stNoTxn [lit "id"] [[SqlValue.other (lit "1")]] (by decide)).1⟩

/-- The initial width is the header length clamped into `[4, 50]`. -/
theorem initWidth_eq (col : Str) : initWidth col = min 50 (max 4 col.length) := by
  simp only [initWidth]
  split_ifs <;> omega

/-- Width update for one cell, in closed form, under the invariant that the
current width never exceeds 50. -/
theorem updateCell_fst (w : Nat) (v : Str) (h : w ≤ 50) :
    (updateCell w v).1 = min 50 (max w v.length) := by
  simp only [updateCell]
  split_ifs <;> simp <;> omega

/-- The updated width again never exceeds 50. -/
theorem updateCell_fst_le (w : Nat) (v : Str) (h : w ≤ 50) : (updateCell w v).1 ≤ 50 := by
  rw [updateCell_fst w v h]
  omega

/-- Under the width invariant, the rendered cell is `truncCell`: values over
50 characters are cut to 47 plus `...`, all others are kept. -/
theorem updateCell_snd (w : Nat) (v : Str) (h : w ≤ 50) :
    (updateCell w v).2 = truncCell v := by
  simp only [updateCell, truncCell]
  split_ifs <;> first | rfl | omega

theorem updateWidthsRow_cons (w : Nat) (ws : List Nat) (v : Str) (vs : List Str) :
    updateWidthsRow (w :: ws) (v :: vs)
      = ((updateCell w v).1 :: (updateWidthsRow ws vs).1,
         (updateCell w v).2 :: (updateWidthsRow ws vs).2) := by
  simp [updateWidthsRow]

/-- Row width update preserves the list length (for rectangular input). -/
theorem updateWidthsRow_fst_length (ws : List Nat) :
    ∀ vs : List Str, vs.length = ws.length →
      (updateWidthsRow ws vs).1.length = ws.length := by
  induction ws with
  | nil => intro vs _; simp [updateWidthsRow]
  | cons w ws ih =>
    intro vs hlen
    cases vs with
    | nil => simp at hlen
    | cons v vs =>
      rw [updateWidthsRow_cons]
      simp only [List.length_cons] at hlen ⊢
      rw [ih vs (by omega)]

/-- Row width update preserves the invariant that all widths are at
most 50. -/
theorem updateWidthsRow_fst_le (ws : List Nat) :
    ∀ vs : List Str, (∀ w ∈ ws, w ≤ 50) →
      ∀ w2 ∈ (updateWidthsRow ws vs).1, w2 ≤ 50 := by
  induction ws with
  | nil => intro vs _ w2 hw2; simp [updateWidthsRow] at hw2
  | cons w ws ih =>
    intro vs hb w2 hw2
    cases vs with
    | nil => simp [updateWidthsRow] at hw2
    | cons v vs =>
      rw [updateWidthsRow_cons] at hw2
      rcases List.mem_cons.1 hw2 with h2 | h2
      · subst h2
        exact updateCell_fst_le w v (hb w (List.mem_cons_self w ws))
      · exact ih vs (fun x hx => hb x (List.mem_cons_of_mem w hx)) w2 h2

/-- Under the width invariant, a whole rendered row is `truncCell`
cell by cell. -/
theorem updateWidthsRow_snd (ws : List Nat) :
    ∀ vs : List Str, vs.length = ws.length → (∀ w ∈ ws, w ≤ 50) →
      (updateWidthsRow ws vs).2 = vs.map truncCell := by
  induction ws with
  | nil =>
    intro vs hlen _
    rw [List.length_nil, List.length_eq_zero] at hlen
    subst hlen
    simp [updateWidthsRow]
  | cons w ws ih =>
    intro vs hlen hb
    cases vs with
    | nil => simp at hlen
    | cons v vs =>
      rw [updateWidthsRow_cons]
      simp only [List.length_cons] at hlen
      rw [List.map_cons, ih vs (by omega) (fun x hx => hb x (List.mem_cons_of_mem w hx)),
        updateCell_snd w v (hb w (List.mem_cons_self w ws))]

/-- The updated width at column `i` is the cell update of the old width at
`i` (for rectangular input). -/
theorem updateWidthsRow_fst_getD (ws : List Nat) :
    ∀ (vs : List Str) (i : Nat), i < ws.length → vs.length = ws.length →
      (updateWidthsRow ws vs).1.getD i 0
        = (updateCell (ws.getD i 0) (vs.getD i [])).1 := by
  induction ws with
  | nil => intro vs i hi _; simp at hi
  | cons w ws ih =>
    intro vs i hi hlen
    cases vs with
    | nil => simp at hlen
    | cons v vs =>
      rw [updateWidthsRow_cons]
      cases i with
      | zero => rfl
      | succ j =>
        simp only [List.length_cons] at hi hlen
        simp only [List.getD_cons_succ]
        exact ih vs j (by omega) (by omega)

/-- Closed form of the row-collection loop on rectangular input whose
widths respect the invariant: the widths are the fold of the row updates
over the first `maxRows - acc.length` formatted rows, and the collected
rows are those formatted rows with each cell truncated by `truncCell`. -/
theorem collectLoop_spec (rows : List (List SqlValue)) :
    ∀ (m : Nat) (ws : List Nat) (acc : List (List Str)), acc.length < m →
      (∀ w ∈ ws, w ≤ 50) → (∀ r ∈ rows, r.length = ws.length) →
      (collectLoop m ws acc rows).1
          = widthsFold ws ((rows.take (m - acc.length)).map (fun r => r.map formatValue)) ∧
      (collectLoop m ws acc rows).2
          = acc ++ (rows.take (m - acc.length)).map
              (fun r => (r.map formatValue).map truncCell) := by
  induction rows with
  | nil => intro m ws acc h _ _; simp [collectLoop, widthsFold]
  | cons r rest ih =>
    intro m ws acc h hb hrect
    have hk : m - acc.length = (m - (acc.length + 1)) + 1 := by omega
    rw [hk, List.take_succ_cons, List.map_cons, List.map_cons]
    have hfr : (r.map formatValue).length = ws.length := by
      rw [List.length_map]; exact hrect r (List.mem_cons_self r rest)
    have hsnd := updateWidthsRow_snd ws (r.map formatValue) hfr hb
    simp only [collectLoop]
    by_cases hstop : m ≤ (acc ++ [(updateWidthsRow ws (r.map formatValue)).2]).length
    · have hm : m = acc.length + 1 := by
        simp only [List.length_append, List.length_cons, List.length_nil] at hstop
        omega
      have hz : m - (acc.length + 1) = 0 := by omega
      rw [if_pos hstop, hz]
      constructor
      · simp [widthsFold]
      · simp [hsnd]
    · rw [if_neg hstop]
      have hlt : (acc ++ [(updateWidthsRow ws (r.map formatValue)).2]).length < m := by
        simp only [List.length_append, List.length_cons, List.length_nil] at hstop ⊢
        omega
      have ih2 := ih m (updateWidthsRow ws (r.map formatValue)).1
        (acc ++ [(updateWidthsRow ws (r.map formatValue)).2]) hlt
        (updateWidthsRow_fst_le ws (r.map formatValue) hb)
        (fun r2 hr2 => by
          rw [updateWidthsRow_fst_length ws (r.map formatValue) hfr]
          exact hrect r2 (List.mem_cons_of_mem r hr2))
      simp only [List.length_append, List.length_cons, List.length_nil, Nat.zero_add,
        Nat.add_zero] at ih2
      constructor
      · exact ih2.1
      · rw [ih2.2, hsnd]
        simp

/-- Closed form of the per-column width after folding a rectangular block
of formatted rows: the starting width grows to the longest value in the
column but is capped at 50. -/
theorem widthsFold_getD (frows : List (List Str)) :
    ∀ (ws : List Nat) (i : Nat), i < ws.length →
      (∀ fr ∈ frows, fr.length = ws.length) → ws.getD i 0 ≤ 50 →
      (widthsFold ws frows).getD i 0
        = min 50 (max (ws.getD i 0) (maxLenList (frows.map (fun fr => fr.getD i [])))) := by
  induction frows with
  | nil =>
    intro ws i hi _ hb
    simp only [widthsFold, List.foldl_nil, List.map_nil, maxLenList, List.foldr_nil]
    omega
  | cons fr frs ih =>
    intro ws i hi hrect hb
    have hfr : fr.length = ws.length := hrect fr (List.mem_cons_self fr frs)
    have hgu := updateWidthsRow_fst_getD ws fr i hi hfr
    have hup := updateCell_fst (ws.getD i 0) (fr.getD i []) hb
    have hlen2 := updateWidthsRow_fst_length ws fr hfr
    have hb2 : (updateWidthsRow ws fr).1.getD i 0 ≤ 50 := by
      rw [hgu, hup]; omega
    have ih2 := ih (updateWidthsRow ws fr).1 i (by rw [hlen2]; exact hi)
      (fun fr2 h2 => by rw [hlen2]; exact hrect fr2 (List.mem_cons_of_mem fr h2)) hb2
    rw [widthsFold, List.foldl_cons, ← widthsFold, ih2, hgu, hup]
    simp only [List.map_cons, maxLenList, List.foldr_cons]
    rw [show (frs.map (fun fr2 => fr2.getD i [])).foldr (fun v m2 => max v.length m2) 0
        = maxLenList (frs.map (fun fr2 => fr2.getD i [])) from rfl]
    omega

/-- C6: in table mode, every column's display width starts at the header
length clamped into `[4, 50]`; the collected cells are the formatted values
with anything over 50 characters cut to its first 47 characters plus the
`...` marker (and shorter values kept whole); and the final width of column
`i` is the starting width grown to the longest formatted value in the
column, capped at 50. -/
theorem displayTable_widths_truncation (st : SessionState) (cols : List Str)
    (stream : List (List SqlValue)) (h1 : 1 ≤ st.maxRows)
    (hrect : ∀ r ∈ stream, r.length = cols.length) :
    (∀ col, initWidth col = min 50 (max 4 col.length)) ∧
    (∀ v : Str, 50 < v.length → truncCell v = v.take 47 ++ lit "...") ∧
    (∀ v : Str, v.length ≤ 50 → truncCell v = v) ∧
    (collectLoop st.maxRows (cols.map initWidth) [] stream).2
      = (stream.take st.maxRows).map (fun r => (r.map formatValue).map truncCell) ∧
    (∀ i, i < cols.length →
      (collectLoop st.maxRows (cols.map initWidth) [] stream).1.getD i 0
        = min 50 (max (initWidth (cols.getD i []))
            (maxLenList ((stream.take st.maxRows).map
              (fun r => (r.map formatValue).getD i []))))) := by
  have h0 : ([] : List (List Str)).length < st.maxRows := by simpa using h1
  have hb : ∀ w ∈ cols.map initWidth, w ≤ 50 := by
    intro w hw
    obtain ⟨col, _, hcol⟩ := List.mem_map.1 hw
    rw [← hcol, initWidth_eq]
    omega
  have hrect2 : ∀ r ∈ stream, r.length = (cols.map initWidth).length := by
    intro r hr
    rw [List.length_map]
    exact hrect r hr
  have hc := collectLoop_spec stream st.maxRows (cols.map initWidth) [] h0 hb hrect2
  simp only [List.length_nil, Nat.sub_zero, List.nil_append] at hc
  refine ⟨initWidth_eq, ?_, ?_, hc.2, ?_⟩
  · intro v hv
    simp [truncCell, hv]
  · intro v hv
    simp only [truncCell]
    rw [if_neg (by omega)]
  · intro i hi
    have hiw : i < (cols.map initWidth).length := by
      rw [List.length_map]; exact hi
    have hrect3 : ∀ fr ∈ (stream.take st.maxRows).map (fun r => r.map formatValue),
        fr.length = (cols.map initWidth).length := by
      intro fr hfr
      obtain ⟨r, hr, hfr2⟩ := List.mem_map.1 hfr
      rw [← hfr2, List.length_map, List.length_map]
      exact hrect r (List.take_subset st.maxRows stream hr)
    have hgd : (cols.map initWidth).getD i 0 = initWidth (cols.getD i []) := by
      rw [List.getD_eq_getElem _ _ hiw, List.getElem_map, List.getD_eq_getElem _ _ hi]
    have hb2 : (cols.map initWidth).getD i 0 ≤ 50 := by
      rw [hgd, initWidth_eq]
      omega
    have hw := widthsFold_getD ((stream.take st.maxRows).map (fun r => r.map formatValue))
      (cols.map initWidth) i hiw hrect3 hb2
    rw [hc.1, hw, hgd, List.map_map]
    rfl

/-- C6 witness: the width/truncation theorem applied at a concrete header
and a 60-character value. -/
theorem displayTable_widths_truncation_witness :
    1 ≤ stNoTxn.maxRows ∧
    (∀ r ∈ [[SqlValue.other v60]], List.length r = List.length [lit "c1"]) ∧
    (collectLoop stNoTxn.maxRows ([lit "c1"].map initWidth) [] [[SqlValue.other v60]]).2
      = ([[SqlValue.other v60]].take stNoTxn.maxRows).map
          (fun r => (r.map formatValue).map truncCell) :=
  ⟨by decide, by decide,
    (displayTable_widths_truncation stNoTxn [lit "c1"] [[SqlValue.other v60]]
      (by decide) (by decide)).2.2.2.1⟩

end PostgresCLI
